import Mathlib

/-!
Verification of the stock-research orchestrator (skills/research_stock.py,
skills/lookup_ticker.py, skills/research_technical.py).

The development shallowly embeds the provider fallback resolvers, the phase
runner `run_phase`, the pre-phase validation sequence of `main`, and the
phase-execution scheduler of `main`.  External effects (child processes,
the on-disk metadata file, directory manipulation) are made explicit:

* a provider call is summarised by the `(success, results, error)` triple the
  Python helper returns; the resolver records an entry in its error map at the
  moment a provider is invoked, so the domain of the returned error map is
  exactly the set of providers that were called;
* a child process run is summarised by a `ProcResult` (normal exit with a
  return code and captured stdout/stderr, `subprocess.TimeoutExpired`,
  `FileNotFoundError`, or another raised exception);
* every `save_metadata` call appends the written snapshot to a `disk` list, so
  the last element of `disk` is the final content of `00_metadata.json`;
* `ProcessPoolExecutor.submit` pickles its arguments, so each parallel task
  receives a fresh copy of the parent metadata dict as it was at submission
  time; the model gives every parallel task `acc.metadata` (the parent dict
  after the technical stage) as its private starting copy, and the parent
  copy is not changed by the parallel stage;
* the `Manager().Lock()` serialises each append-and-persist sequence, so a
  parallel task's metadata write is modelled as one atomic disk append, in
  the (nondeterministic) order `completionOrder` in which futures complete.
-/

/-! ## Provider fallback resolvers (lookup_ticker.py, research_technical.py) -/

/-- Outcome of one provider helper call: the `(success, results, error)`
triple returned by `search_ticker_yfinance` / `search_ticker_finnhub` /
`search_ticker_openbb`.  `α` is the ticker-record payload type. -/
structure ProviderResult (α : Type) where
  success : Bool
  results : List α
  error : Option String

/-- `search_ticker_with_fallback` (lookup_ticker.py, lines 245-301).
Tries yfinance, then Finnhub, then OpenBB; a provider is taken only when
`success and results` (Python truthiness: the result list is non-empty).
`all_errors` gains one entry per provider at the moment that provider is
invoked, so its key list records exactly the providers attempted. -/
def search_ticker_with_fallback {α : Type} (provider : String)
    (yf fh ob : ProviderResult α) :
    List α × String × List (String × Option String) :=
  let all_errors := [("yfinance", yf.error)]
  if yf.success && !yf.results.isEmpty then
    (yf.results, "yfinance", all_errors)
  else
    let all_errors := all_errors ++ [("finnhub", fh.error)]
    if fh.success && !fh.results.isEmpty then
      (fh.results, "Finnhub", all_errors)
    else
      let all_errors := all_errors ++ [("openbb", ob.error)]
      if ob.success && !ob.results.isEmpty then
        (ob.results, "OpenBB+FMP (provider=" ++ provider ++ ")", all_errors)
      else
        ([], "none", all_errors)

/-- A peer dictionary: Python `Dict[str, List]` keyed by
`symbol`/`name`/`price`/`market_cap` (values rendered as strings; only
dict truthiness — having at least one key — matters to the resolver). -/
abbrev PeersData := List (String × List String)

/-- Outcome of one peer-provider helper call (`get_peers_finnhub`,
`get_peers_openbb` in research_technical.py). -/
structure PeerProviderResult where
  success : Bool
  peers_data : PeersData
  error : Option String

/-- `get_peers_with_fallback` (research_technical.py, lines 232-284).
Tries Finnhub then OpenBB+FMP; a provider is taken only when
`success and peers_data` (the returned dict is non-empty).  On exhaustion
returns the four-key sentinel dict whose value lists are all empty,
provider name `"none"`, and the full error map. -/
def get_peers_with_fallback (fh ob : PeerProviderResult) :
    PeersData × String × List (String × Option String) :=
  let all_errors := [("finnhub", fh.error)]
  if fh.success && !fh.peers_data.isEmpty then
    (fh.peers_data, "Finnhub", all_errors)
  else
    let all_errors := all_errors ++ [("openbb", ob.error)]
    if ob.success && !ob.peers_data.isEmpty then
      (ob.peers_data, "OpenBB+FMP", all_errors)
    else
      ([("symbol", []), ("name", []), ("price", []), ("market_cap", [])],
       "none", all_errors)

/-! ## Phase runner (research_stock.py, run_phase, lines 240-372) -/

/-- Outcome of `subprocess.run` inside `run_phase` (and inside
`validate_ticker`): a normal exit with a return code and captured
stdout/stderr, a `subprocess.TimeoutExpired`, a `FileNotFoundError`, or
any other raised exception with its message. -/
inductive ProcResult where
  | exited (returncode : Int) (stdout stderr : String)
  | timedOut
  | notFound
  | raised (msg : String)
deriving DecidableEq

/-- The run metadata dict created by `create_metadata` and mutated by
`run_phase` (research_stock.py, lines 183-218). -/
structure Metadata where
  symbol : String
  research_date : String
  research_timestamp : String
  phases_completed : List String
  phases_failed : List String
  errors : List String
  data_sources : List (String × String)
deriving DecidableEq

/-- `create_metadata` (research_stock.py, lines 183-218): fresh metadata with
empty phase lists; the initial snapshot is also written to disk (the caller
records that write). -/
def create_metadata (symbol research_date research_timestamp : String) :
    Metadata :=
  { symbol := symbol
    research_date := research_date
    research_timestamp := research_timestamp
    phases_completed := []
    phases_failed := []
    errors := []
    data_sources := [] }

/-- `run_phase` (research_stock.py, lines 240-372), given the outcome of its
`subprocess.run` call.  Returns the success boolean and the mutated
metadata (which `save_metadata` then persists; the caller records the
write).  `phase_timeout` is `PHASE_TIMEOUTS.get(phase_name, 300)`; it only
feeds the timeout message.  Holding `metadata_lock` does not change the
update itself, only makes the append-and-persist atomic. -/
def run_phase (phase_name phase_script : String) (phase_timeout : Nat)
    (res : ProcResult) (metadata : Metadata) : Bool × Metadata :=
  match res with
  | .exited returncode _ stderr =>
    if returncode = 0 then
      (true, { metadata with
                 phases_completed := metadata.phases_completed ++ [phase_name] })
    else
      let error_msg := "Phase '" ++ phase_name ++ "' failed with return code "
        ++ toString returncode
      let error_msg :=
        if stderr = "" then error_msg else error_msg ++ ": " ++ stderr
      (false, { metadata with
                  phases_failed := metadata.phases_failed ++ [phase_name]
                  errors := metadata.errors ++ [error_msg] })
  | .timedOut =>
    let timeout_minutes := phase_timeout / 60
    let error_msg := "Phase '" ++ phase_name ++ "' timed out after "
      ++ toString timeout_minutes ++ " minutes"
    (false, { metadata with
                phases_failed := metadata.phases_failed ++ [phase_name]
                errors := metadata.errors ++ [error_msg] })
  | .notFound =>
    let error_msg := "Phase script not found: " ++ phase_script
    (false, { metadata with
                phases_failed := metadata.phases_failed ++ [phase_name]
                errors := metadata.errors ++ [error_msg] })
  | .raised msg =>
    let error_msg := "Phase '" ++ phase_name
      ++ "' encountered unexpected error: " ++ msg
    (false, { metadata with
                phases_failed := metadata.phases_failed ++ [phase_name]
                errors := metadata.errors ++ [error_msg] })

/-- Whether a subprocess outcome counts as phase success: exit code 0 is the
only success condition. -/
def resOk : ProcResult → Bool
  | .exited returncode _ _ => returncode = 0
  | _ => false

/-- `validate_ticker` (research_stock.py, lines 91-137), given the outcome of
its `subprocess.run` on lookup_ticker.py: exit 0 → valid; non-zero exit →
invalid; timeout, missing script, or any other exception → treated as
valid with a warning. -/
def validate_ticker (res : ProcResult) : Bool :=
  match res with
  | .exited returncode _ _ => returncode = 0
  | .timedOut => true
  | .notFound => true
  | .raised _ => true

/-! ## Pre-phase validation sequence of `main` (research_stock.py, lines 431-519) -/

/-- Observable side-effect steps of `main` before phase execution:
the ticker lookup, the destructive `shutil.rmtree` loop of
`cleanup_old_directories`, `ensure_directory(work_dir)`, the metadata-file
creation, the synchronous company-overview fetch, and the start of phase
execution (Step 5). -/
inductive PreEvent where
  | validateTickerEv
  | cleanupDeleteEv
  | ensureDirEv
  | createMetadataEv
  | companyOverviewEv
  | phaseExecutionEv
deriving DecidableEq

/-- Inputs that decide the pre-phase control flow of `main`: whether
`validate_ticker` returned True, whether `--skip-cleanup` was given,
whether every requested phase name is valid, and whether
`validate_api_keys` found every required credential. -/
structure PreRunConfig where
  tickerValid : Bool
  skip_cleanup : Bool
  phasesValid : Bool
  keysValid : Bool

/-- The pre-phase section of `main` (research_stock.py, lines 431-519) as the
list of side-effect events it performs, paired with `some exitCode` when it
returns before phase execution and `none` when it reaches Step 5.  The
source order is: ticker validation (abort on failure), old-directory
cleanup, work-directory creation, metadata creation, phase-name validation
(abort), API-key validation (abort), company overview, phase execution. -/
def mainPreRun (cfg : PreRunConfig) : List PreEvent × Option Nat :=
  let events := [PreEvent.validateTickerEv]
  if !cfg.tickerValid then
    (events, some 1)
  else
    let events := events
      ++ (if cfg.skip_cleanup then [] else [PreEvent.cleanupDeleteEv])
      ++ [PreEvent.ensureDirEv, PreEvent.createMetadataEv]
    if !cfg.phasesValid then
      (events, some 1)
    else if !cfg.keysValid then
      (events, some 1)
    else
      (events ++ [PreEvent.companyOverviewEv, PreEvent.phaseExecutionEv], none)

/-! ## Phase-execution scheduler of `main` (research_stock.py, lines 521-660) -/

/-- The `all_phases` table of `main` (research_stock.py, lines 463-473):
phase name to script path. -/
def all_phases : String → String := fun name =>
  match name with
  | "technical" => "skills/research_technical.py"
  | "fundamental" => "skills/research_fundamental.py"
  | "research" => "skills/research_perplexity.py"
  | "analysis" => "skills/research_analysis.py"
  | "sec" => "skills/research_sec.py"
  | "wikipedia" => "skills/research_wikipedia.py"
  | "report" => "skills/research_report.py"
  | "deep" => "skills/research_deep.py"
  | "final" => "skills/research_final.py"
  | _ => ""

/-- Process-level events recorded for the ordering claims: a phase's child
process being launched, and that child having terminated. -/
inductive Event where
  | launch (phase : String)
  | exited (phase : String)
deriving DecidableEq

/-- A run configuration for the phase-execution section of `main`: the
validated phase list, which scripts exist on disk, the per-phase timeout
(`PHASE_TIMEOUTS.get(name, 300)` — config.py is outside src/, so the
resolved value is a parameter), each phase's subprocess outcome, and the
order in which the parallel-stage futures complete (the scheduling
nondeterminism of `as_completed`). -/
structure RunConfig where
  symbol : String
  research_date : String
  research_timestamp : String
  phases_to_run : List String
  scriptExists : String → Bool
  phase_timeout : String → Nat
  procResult : String → ProcResult
  completionOrder : List String

/-- Child-process events contributed by one `run_phase` call: none when the
script could not be launched (`FileNotFoundError`), otherwise a launch
followed by the child's termination (a timeout also kills the child
before `run_phase` returns). -/
def phaseEvents (res : ProcResult) (name : String) : List Event :=
  match res with
  | .notFound => []
  | _ => [.launch name, .exited name]

/-- Accumulated scheduler state: the parent process's metadata dict, the
sequence of metadata snapshots written to `00_metadata.json` (in write
order), the parent's success/failure tallies, and the process-event
trace. -/
structure StageAcc where
  metadata : Metadata
  disk : List Metadata
  success_count : Nat
  failed_count : Nat
  events : List Event
deriving DecidableEq

/-- One sequential phase block of `main` (`technical` at lines 531-552,
`report`/`deep`/`final` at lines 588-632): if the phase is requested and
its script exists, call `run_phase` on the parent's metadata, persist the
result, and bump the matching tally; a requested phase whose script is
absent is skipped entirely. -/
def runSequentialPhase (cfg : RunConfig) (name : String) (acc : StageAcc) :
    StageAcc :=
  if name ∈ cfg.phases_to_run then
    if cfg.scriptExists name then
      let r := run_phase name (all_phases name) (cfg.phase_timeout name)
        (cfg.procResult name) acc.metadata
      { metadata := r.2
        disk := acc.disk ++ [r.2]
        success_count := acc.success_count + (if r.1 then 1 else 0)
        failed_count := acc.failed_count + (if r.1 then 0 else 1)
        events := acc.events ++ phaseEvents (cfg.procResult name) name }
    else acc
  else acc

/-- `other_data_phases` (research_stock.py, line 526): requested phases other
than technical, report, deep, final. -/
def other_data_phases (ps : List String) : List String :=
  ps.filter (fun p => decide (p ∉ ["technical", "report", "deep", "final"]))

/-- The parallel-stage tasks actually submitted to the pool
(research_stock.py, lines 566-574): requested other data phases whose
script exists. -/
def submittedTasks (cfg : RunConfig) : List String :=
  (other_data_phases cfg.phases_to_run).filter cfg.scriptExists

/-- One parallel-stage task (research_stock.py, line 573): `run_phase` runs
in a worker process on `meta0`, the task's private unpickled copy of the
parent metadata as it was at submission time. -/
def parallelTask (cfg : RunConfig) (meta0 : Metadata) (p : String) :
    Bool × Metadata :=
  run_phase p (all_phases p) (cfg.phase_timeout p) (cfg.procResult p) meta0

/-- The parallel stage of `main` (research_stock.py, lines 554-586): every
submitted task's boolean result is collected (in completion order, which
cannot change the tallies), each task's locked append-and-persist writes
that task's private metadata copy to disk in completion order, and the
parent's own metadata dict is not modified. -/
def runParallelStage (cfg : RunConfig) (acc : StageAcc) : StageAcc :=
  { metadata := acc.metadata
    disk := acc.disk
      ++ cfg.completionOrder.map (fun p => (parallelTask cfg acc.metadata p).2)
    success_count := acc.success_count
      + (submittedTasks cfg).countP (fun p => (parallelTask cfg acc.metadata p).1)
    failed_count := acc.failed_count
      + (submittedTasks cfg).countP (fun p => !(parallelTask cfg acc.metadata p).1)
    events := acc.events
      ++ cfg.completionOrder.flatMap (fun p => phaseEvents (cfg.procResult p) p) }

/-- Step 5 of `main` (research_stock.py, lines 521-632): create the metadata
file, run the technical phase alone, then the parallel stage, then report,
deep, final sequentially. -/
def mainPhaseExec (cfg : RunConfig) : StageAcc :=
  let metadata :=
    create_metadata cfg.symbol cfg.research_date cfg.research_timestamp
  let acc0 : StageAcc :=
    { metadata := metadata, disk := [metadata]
      success_count := 0, failed_count := 0, events := [] }
  let acc1 := runSequentialPhase cfg "technical" acc0
  let acc2 := runParallelStage cfg acc1
  let acc3 := runSequentialPhase cfg "report" acc2
  let acc4 := runSequentialPhase cfg "deep" acc3
  runSequentialPhase cfg "final" acc4

/-- The orchestrator's exit code (research_stock.py, lines 654-660): 0 when
`success_count > 0`, else 1. -/
def mainExitCode (cfg : RunConfig) : Nat :=
  if (mainPhaseExec cfg).success_count > 0 then 0 else 1

/-- The final content of `00_metadata.json`: the last snapshot written. -/
def finalDiskMetadata (cfg : RunConfig) : Metadata :=
  (mainPhaseExec cfg).disk.getLastD
    (create_metadata cfg.symbol cfg.research_date cfg.research_timestamp)

/-- Substring containment, for the error-message claims. -/
def containsStr (s sub : String) : Prop := ∃ a b, s = a ++ sub ++ b

/-! ## Shared helper lemmas -/

theorem run_phase_fst (n s : String) (t : Nat) (r : ProcResult) (m : Metadata) :
    (run_phase n s t r m).1 = resOk r := by
  cases r with
  | exited c o e =>
    by_cases hc : c = 0 <;> simp [run_phase, resOk, hc]
  | timedOut => simp [run_phase, resOk]
  | notFound => simp [run_phase, resOk]
  | raised msg => simp [run_phase, resOk]

theorem run_phase_completed (n s : String) (t : Nat) (r : ProcResult)
    (m : Metadata) :
    (run_phase n s t r m).2.phases_completed =
      m.phases_completed ++ (if resOk r then [n] else []) := by
  cases r with
  | exited c o e =>
    by_cases hc : c = 0 <;> simp [run_phase, resOk, hc]
  | timedOut => simp [run_phase, resOk]
  | notFound => simp [run_phase, resOk]
  | raised msg => simp [run_phase, resOk]

theorem run_phase_failed (n s : String) (t : Nat) (r : ProcResult)
    (m : Metadata) :
    (run_phase n s t r m).2.phases_failed =
      m.phases_failed ++ (if resOk r then [] else [n]) := by
  cases r with
  | exited c o e =>
    by_cases hc : c = 0 <;> simp [run_phase, resOk, hc]
  | timedOut => simp [run_phase, resOk]
  | notFound => simp [run_phase, resOk]
  | raised msg => simp [run_phase, resOk]

theorem runSequentialPhase_success_count (cfg : RunConfig) (n : String)
    (acc : StageAcc) :
    (runSequentialPhase cfg n acc).success_count =
      acc.success_count +
        (if n ∈ cfg.phases_to_run ∧ cfg.scriptExists n = true ∧
            resOk (cfg.procResult n) = true then 1 else 0) := by
  unfold runSequentialPhase
  by_cases hm : n ∈ cfg.phases_to_run
  · by_cases he : cfg.scriptExists n = true
    · simp only [hm, he, if_true, run_phase_fst]
      by_cases hr : resOk (cfg.procResult n) = true <;> simp [hr, hm, he]
    · simp [hm, he]
  · simp [hm]

theorem runSequentialPhase_failed_count (cfg : RunConfig) (n : String)
    (acc : StageAcc) :
    (runSequentialPhase cfg n acc).failed_count =
      acc.failed_count +
        (if n ∈ cfg.phases_to_run ∧ cfg.scriptExists n = true ∧
            resOk (cfg.procResult n) = false then 1 else 0) := by
  unfold runSequentialPhase
  by_cases hm : n ∈ cfg.phases_to_run
  · by_cases he : cfg.scriptExists n = true
    · simp only [hm, he, if_true, run_phase_fst]
      by_cases hr : resOk (cfg.procResult n) = true <;> simp [hr, hm, he]
    · simp [hm, he]
  · simp [hm]

theorem runParallelStage_success_count (cfg : RunConfig) (acc : StageAcc) :
    (runParallelStage cfg acc).success_count =
      acc.success_count +
        (submittedTasks cfg).countP (fun p => resOk (cfg.procResult p)) := by
  unfold runParallelStage
  simp only [parallelTask, run_phase_fst]

theorem runParallelStage_failed_count (cfg : RunConfig) (acc : StageAcc) :
    (runParallelStage cfg acc).failed_count =
      acc.failed_count +
        (submittedTasks cfg).countP (fun p => !resOk (cfg.procResult p)) := by
  unfold runParallelStage
  simp only [parallelTask, run_phase_fst]

theorem mainPhaseExec_success_count (cfg : RunConfig) :
    (mainPhaseExec cfg).success_count =
      (if "technical" ∈ cfg.phases_to_run ∧ cfg.scriptExists "technical" = true ∧
          resOk (cfg.procResult "technical") = true then 1 else 0)
      + (submittedTasks cfg).countP (fun p => resOk (cfg.procResult p))
      + (if "report" ∈ cfg.phases_to_run ∧ cfg.scriptExists "report" = true ∧
          resOk (cfg.procResult "report") = true then 1 else 0)
      + (if "deep" ∈ cfg.phases_to_run ∧ cfg.scriptExists "deep" = true ∧
          resOk (cfg.procResult "deep") = true then 1 else 0)
      + (if "final" ∈ cfg.phases_to_run ∧ cfg.scriptExists "final" = true ∧
          resOk (cfg.procResult "final") = true then 1 else 0) := by
  unfold mainPhaseExec
  rw [runSequentialPhase_success_count, runSequentialPhase_success_count,
    runSequentialPhase_success_count, runParallelStage_success_count,
    runSequentialPhase_success_count]
  simp

theorem mainPhaseExec_failed_count (cfg : RunConfig) :
    (mainPhaseExec cfg).failed_count =
      (if "technical" ∈ cfg.phases_to_run ∧ cfg.scriptExists "technical" = true ∧
          resOk (cfg.procResult "technical") = false then 1 else 0)
      + (submittedTasks cfg).countP (fun p => !resOk (cfg.procResult p))
      + (if "report" ∈ cfg.phases_to_run ∧ cfg.scriptExists "report" = true ∧
          resOk (cfg.procResult "report") = false then 1 else 0)
      + (if "deep" ∈ cfg.phases_to_run ∧ cfg.scriptExists "deep" = true ∧
          resOk (cfg.procResult "deep") = false then 1 else 0)
      + (if "final" ∈ cfg.phases_to_run ∧ cfg.scriptExists "final" = true ∧
          resOk (cfg.procResult "final") = false then 1 else 0) := by
  unfold mainPhaseExec
  rw [runSequentialPhase_failed_count, runSequentialPhase_failed_count,
    runSequentialPhase_failed_count, runParallelStage_failed_count,
    runSequentialPhase_failed_count]
  simp

theorem runSequentialPhase_metadata (cfg : RunConfig) (n : String)
    (acc : StageAcc) :
    (runSequentialPhase cfg n acc).metadata =
      if n ∈ cfg.phases_to_run ∧ cfg.scriptExists n = true then
        (run_phase n (all_phases n) (cfg.phase_timeout n) (cfg.procResult n)
          acc.metadata).2
      else acc.metadata := by
  unfold runSequentialPhase
  by_cases hm : n ∈ cfg.phases_to_run
  · by_cases he : cfg.scriptExists n = true <;> simp [hm, he]
  · simp [hm]

theorem runSequentialPhase_disk (cfg : RunConfig) (n : String)
    (acc : StageAcc) :
    (runSequentialPhase cfg n acc).disk =
      acc.disk ++
        (if n ∈ cfg.phases_to_run ∧ cfg.scriptExists n = true then
          [(run_phase n (all_phases n) (cfg.phase_timeout n) (cfg.procResult n)
            acc.metadata).2]
        else []) := by
  unfold runSequentialPhase
  by_cases hm : n ∈ cfg.phases_to_run
  · by_cases he : cfg.scriptExists n = true <;> simp [hm, he]
  · simp [hm]

theorem runSequentialPhase_events (cfg : RunConfig) (n : String)
    (acc : StageAcc) :
    (runSequentialPhase cfg n acc).events =
      acc.events ++
        (if n ∈ cfg.phases_to_run ∧ cfg.scriptExists n = true then
          phaseEvents (cfg.procResult n) n
        else []) := by
  unfold runSequentialPhase
  by_cases hm : n ∈ cfg.phases_to_run
  · by_cases he : cfg.scriptExists n = true <;> simp [hm, he]
  · simp [hm]

theorem runParallelStage_metadata (cfg : RunConfig) (acc : StageAcc) :
    (runParallelStage cfg acc).metadata = acc.metadata := rfl

theorem runParallelStage_disk (cfg : RunConfig) (acc : StageAcc) :
    (runParallelStage cfg acc).disk =
      acc.disk ++
        cfg.completionOrder.map (fun p => (parallelTask cfg acc.metadata p).2) :=
  rfl

theorem runParallelStage_events (cfg : RunConfig) (acc : StageAcc) :
    (runParallelStage cfg acc).events =
      acc.events ++
        cfg.completionOrder.flatMap (fun p => phaseEvents (cfg.procResult p) p) :=
  rfl

/-- A phase name occurs in neither list of a metadata snapshot. -/
def NotRecorded (p : String) (m : Metadata) : Prop :=
  p ∉ m.phases_completed ∧ p ∉ m.phases_failed

theorem run_phase_notRecorded (n s : String) (t : Nat) (r : ProcResult)
    (m : Metadata) (p : String) (hne : p ≠ n) (h : NotRecorded p m) :
    NotRecorded p (run_phase n s t r m).2 := by
  constructor
  · rw [run_phase_completed]
    intro hmem
    rcases List.mem_append.mp hmem with h1 | h1
    · exact h.1 h1
    · split at h1 <;> simp_all
  · rw [run_phase_failed]
    intro hmem
    rcases List.mem_append.mp hmem with h1 | h1
    · exact h.2 h1
    · split at h1 <;> simp_all

theorem seq_notRecorded (cfg : RunConfig) (n : String) (acc : StageAcc)
    (p : String) (hex : cfg.scriptExists p = false)
    (hm : NotRecorded p acc.metadata)
    (hd : ∀ m ∈ acc.disk, NotRecorded p m) :
    NotRecorded p (runSequentialPhase cfg n acc).metadata ∧
      ∀ m ∈ (runSequentialPhase cfg n acc).disk, NotRecorded p m := by
  have hne : n ∈ cfg.phases_to_run ∧ cfg.scriptExists n = true → p ≠ n := by
    rintro ⟨_, he⟩ rfl
    rw [hex] at he
    exact Bool.false_ne_true he
  constructor
  · rw [runSequentialPhase_metadata]
    split
    · exact run_phase_notRecorded _ _ _ _ _ _ (by tauto) hm
    · exact hm
  · rw [runSequentialPhase_disk]
    intro m hmem
    rcases List.mem_append.mp hmem with h1 | h1
    · exact hd m h1
    · split at h1
      · rw [List.mem_singleton] at h1
        subst h1
        exact run_phase_notRecorded _ _ _ _ _ _ (by tauto) hm
      · simp at h1

theorem par_notRecorded (cfg : RunConfig) (acc : StageAcc) (p : String)
    (hex : cfg.scriptExists p = false)
    (hco : ∀ q ∈ cfg.completionOrder, q ∈ submittedTasks cfg)
    (hm : NotRecorded p acc.metadata)
    (hd : ∀ m ∈ acc.disk, NotRecorded p m) :
    NotRecorded p (runParallelStage cfg acc).metadata ∧
      ∀ m ∈ (runParallelStage cfg acc).disk, NotRecorded p m := by
  constructor
  · rw [runParallelStage_metadata]
    exact hm
  · rw [runParallelStage_disk]
    intro m hmem
    rcases List.mem_append.mp hmem with h1 | h1
    · exact hd m h1
    · rcases List.mem_map.mp h1 with ⟨q, hq, rfl⟩
      have hq2 := hco q hq
      have hqx : cfg.scriptExists q = true :=
        (List.mem_filter.mp hq2).2
      have hne : p ≠ q := by
        rintro rfl
        rw [hex] at hqx
        exact Bool.false_ne_true hqx
      exact run_phase_notRecorded _ _ _ _ _ _ hne hm

theorem mainPhaseExec_notRecorded (cfg : RunConfig) (p : String)
    (hex : cfg.scriptExists p = false)
    (hco : ∀ q ∈ cfg.completionOrder, q ∈ submittedTasks cfg) :
    NotRecorded p (mainPhaseExec cfg).metadata ∧
      ∀ m ∈ (mainPhaseExec cfg).disk, NotRecorded p m := by
  have h0 : NotRecorded p
      (create_metadata cfg.symbol cfg.research_date cfg.research_timestamp) := by
    constructor <;> simp [create_metadata]
  have hd0 : ∀ m ∈
      [create_metadata cfg.symbol cfg.research_date cfg.research_timestamp],
      NotRecorded p m := by
    intro m hmem
    rw [List.mem_singleton] at hmem
    subst hmem
    exact h0
  have hstep1 := seq_notRecorded cfg "technical"
    { metadata :=
        create_metadata cfg.symbol cfg.research_date cfg.research_timestamp
      disk :=
        [create_metadata cfg.symbol cfg.research_date cfg.research_timestamp]
      success_count := 0, failed_count := 0, events := [] } p hex h0 hd0
  have hstep2 := par_notRecorded cfg _ p hex hco hstep1.1 hstep1.2
  have hstep3 := seq_notRecorded cfg "report" _ p hex hstep2.1 hstep2.2
  have hstep4 := seq_notRecorded cfg "deep" _ p hex hstep3.1 hstep3.2
  exact seq_notRecorded cfg "final" _ p hex hstep4.1 hstep4.2

theorem provider_cond_false {α : Type} (x : ProviderResult α)
    (h : x.success = false ∨ x.results = []) :
    (x.success && !x.results.isEmpty) = false := by
  rcases h with h | h <;> simp [h]

theorem provider_cond_true {α : Type} (x : ProviderResult α)
    (hs : x.success = true) (hr : x.results ≠ []) :
    (x.success && !x.results.isEmpty) = true := by
  cases hx : x.results with
  | nil => exact absurd hx hr
  | cons a l => simp [hs, hx]

theorem peer_cond_false (x : PeerProviderResult)
    (h : x.success = false ∨ x.peers_data = []) :
    (x.success && !x.peers_data.isEmpty) = false := by
  rcases h with h | h <;> simp [h]

theorem peer_cond_true (x : PeerProviderResult)
    (hs : x.success = true) (hr : x.peers_data ≠ []) :
    (x.success && !x.peers_data.isEmpty) = true := by
  cases hx : x.peers_data with
  | nil => exact absurd hx hr
  | cons a l => simp [hs, hx]

/-! ## Claim theorems -/

/-- C1: in both fallback resolvers (ticker lookup: yfinance, Finnhub, OpenBB;
peer discovery: Finnhub, OpenBB), the first provider whose call returns
success with a non-empty collection determines the returned result and
provider name, and the returned error map has entries exactly for the
providers invoked up to and including that one — an entry is recorded at
the moment a provider is called, so no provider after the first success is
invoked.  A provider returning success with an empty collection is treated
as a failure and the next provider is tried (the failure hypotheses below
are disjunctions covering exactly that case). -/
theorem fallback_first_success_short_circuits :
    (∀ (α : Type) (prov : String) (yf fh ob : ProviderResult α),
      (yf.success = true → yf.results ≠ [] →
        search_ticker_with_fallback prov yf fh ob =
          (yf.results, "yfinance", [("yfinance", yf.error)])) ∧
      ((yf.success = false ∨ yf.results = []) →
        fh.success = true → fh.results ≠ [] →
        search_ticker_with_fallback prov yf fh ob =
          (fh.results, "Finnhub",
           [("yfinance", yf.error), ("finnhub", fh.error)])) ∧
      ((yf.success = false ∨ yf.results = []) →
        (fh.success = false ∨ fh.results = []) →
        ob.success = true → ob.results ≠ [] →
        search_ticker_with_fallback prov yf fh ob =
          (ob.results, "OpenBB+FMP (provider=" ++ prov ++ ")",
           [("yfinance", yf.error), ("finnhub", fh.error),
            ("openbb", ob.error)]))) ∧
    (∀ fh ob : PeerProviderResult,
      (fh.success = true → fh.peers_data ≠ [] →
        get_peers_with_fallback fh ob =
          (fh.peers_data, "Finnhub", [("finnhub", fh.error)])) ∧
      ((fh.success = false ∨ fh.peers_data = []) →
        ob.success = true → ob.peers_data ≠ [] →
        get_peers_with_fallback fh ob =
          (ob.peers_data, "OpenBB+FMP",
           [("finnhub", fh.error), ("openbb", ob.error)]))) := by
  constructor
  · intro α prov yf fh ob
    refine ⟨fun hs hr => ?_, fun h1 hs hr => ?_, fun h1 h2 hs hr => ?_⟩
    · simp [search_ticker_with_fallback, provider_cond_true yf hs hr]
    · simp [search_ticker_with_fallback, provider_cond_false yf h1,
        provider_cond_true fh hs hr]
    · simp [search_ticker_with_fallback, provider_cond_false yf h1,
        provider_cond_false fh h2, provider_cond_true ob hs hr]
  · intro fh ob
    refine ⟨fun hs hr => ?_, fun h1 hs hr => ?_⟩
    · simp [get_peers_with_fallback, peer_cond_true fh hs hr]
    · simp [get_peers_with_fallback, peer_cond_false fh h1,
        peer_cond_true ob hs hr]

/-- C1 witness: yfinance reports success with an empty collection (so it is
treated as a failure), Finnhub returns a non-empty result; the resolver
returns Finnhub's result and never invokes OpenBB. -/
theorem fallback_first_success_short_circuits_witness :
    search_ticker_with_fallback "cboe"
        ({ success := true, results := [], error := none } : ProviderResult String)
        { success := true, results := ["AVGO"], error := none }
        { success := false, results := [], error := some "unused" } =
      (["AVGO"], "Finnhub", [("yfinance", none), ("finnhub", none)]) :=
  (fallback_first_success_short_circuits.1 String "cboe"
      { success := true, results := [], error := none }
      { success := true, results := ["AVGO"], error := none }
      { success := false, results := [], error := some "unused" }).2.1
    (Or.inr rfl) rfl (by decide)

/-- C6: when every provider in a chain fails, the resolver returns an empty
result (for peers: the sentinel dict all of whose value lists are empty),
the sentinel provider name "none", and an errors map with exactly one
entry per provider attempted. -/
theorem fallback_exhaustion_errors_complete :
    (∀ (α : Type) (prov : String) (yf fh ob : ProviderResult α),
      (yf.success = false ∨ yf.results = []) →
      (fh.success = false ∨ fh.results = []) →
      (ob.success = false ∨ ob.results = []) →
      search_ticker_with_fallback prov yf fh ob =
        (([] : List α), "none",
         [("yfinance", yf.error), ("finnhub", fh.error),
          ("openbb", ob.error)])) ∧
    (∀ fh ob : PeerProviderResult,
      (fh.success = false ∨ fh.peers_data = []) →
      (ob.success = false ∨ ob.peers_data = []) →
      get_peers_with_fallback fh ob =
        ([("symbol", []), ("name", []), ("price", []), ("market_cap", [])],
         "none", [("finnhub", fh.error), ("openbb", ob.error)]) ∧
      ∀ kv ∈ (get_peers_with_fallback fh ob).1, kv.2 = ([] : List String)) := by
  constructor
  · intro α prov yf fh ob h1 h2 h3
    simp [search_ticker_with_fallback, provider_cond_false yf h1,
      provider_cond_false fh h2, provider_cond_false ob h3]
  · intro fh ob h1 h2
    have heq : get_peers_with_fallback fh ob =
        ([("symbol", []), ("name", []), ("price", []), ("market_cap", [])],
         "none", [("finnhub", fh.error), ("openbb", ob.error)]) := by
      simp [get_peers_with_fallback, peer_cond_false fh h1,
        peer_cond_false ob h2]
    refine ⟨heq, ?_⟩
    rw [heq]
    intro kv hkv
    simp at hkv
    rcases hkv with h | h | h | h <;> simp [h]

/-- C6 witness: all ticker providers and all peer providers fail; the
resolvers return the "none" sentinel and complete error maps. -/
theorem fallback_exhaustion_errors_complete_witness :
    search_ticker_with_fallback "cboe"
        ({ success := false, results := [],
           error := some "yfinance does not support company name search" } :
          ProviderResult String)
        { success := false, results := [],
          error := some "FINNHUB_API_KEY not set in environment" }
        { success := false, results := [],
          error := some "OpenBB not installed" } =
      (([] : List String), "none",
       [("yfinance", some "yfinance does not support company name search"),
        ("finnhub", some "FINNHUB_API_KEY not set in environment"),
        ("openbb", some "OpenBB not installed")]) :=
  (fallback_exhaustion_errors_complete.1 String "cboe"
      { success := false, results := [],
        error := some "yfinance does not support company name search" }
      { success := false, results := [],
        error := some "FINNHUB_API_KEY not set in environment" }
      { success := false, results := [],
        error := some "OpenBB not installed" })
    (Or.inl rfl) (Or.inl rfl) (Or.inl rfl)

/-- C7: every terminating `run_phase` invocation appends the phase name to
exactly one of `phases_completed` and `phases_failed` (and leaves the
other list unchanged); consequently, when the name was in neither list
before the call, it is in exactly one of the two lists afterwards. -/
theorem run_phase_records_exactly_one (n s : String) (t : Nat)
    (r : ProcResult) (m : Metadata) :
    (((run_phase n s t r m).2.phases_completed = m.phases_completed ++ [n] ∧
      (run_phase n s t r m).2.phases_failed = m.phases_failed) ∨
     ((run_phase n s t r m).2.phases_completed = m.phases_completed ∧
      (run_phase n s t r m).2.phases_failed = m.phases_failed ++ [n])) ∧
    (n ∉ m.phases_completed → n ∉ m.phases_failed →
      ((n ∈ (run_phase n s t r m).2.phases_completed ∧
        n ∉ (run_phase n s t r m).2.phases_failed) ∨
       (n ∉ (run_phase n s t r m).2.phases_completed ∧
        n ∈ (run_phase n s t r m).2.phases_failed))) := by
  have hc := run_phase_completed n s t r m
  have hf := run_phase_failed n s t r m
  by_cases hr : resOk r = true
  · rw [hr] at hc hf
    simp only [if_true, List.append_nil] at hc hf
    refine ⟨Or.inl ⟨hc, hf⟩, fun hnc hnf => Or.inl ⟨?_, ?_⟩⟩
    · rw [hc]; simp
    · rw [hf]; exact hnf
  · rw [Bool.not_eq_true] at hr
    rw [hr] at hc hf
    simp only [Bool.false_eq_true, if_false, List.append_nil] at hc hf
    refine ⟨Or.inr ⟨hc, hf⟩, fun hnc hnf => Or.inr ⟨?_, ?_⟩⟩
    · rw [hc]; exact hnc
    · rw [hf]; simp

/-- C7 witness: a phase exiting non-zero, starting from fresh metadata, ends
in the failed list only. -/
theorem run_phase_records_exactly_one_witness :
    ("sec" ∉ (run_phase "sec" "skills/research_sec.py" 300
        (ProcResult.exited 1 "" "boom") (create_metadata "TSLA" "d" "t")).2.phases_completed ∧
     "sec" ∈ (run_phase "sec" "skills/research_sec.py" 300
        (ProcResult.exited 1 "" "boom") (create_metadata "TSLA" "d" "t")).2.phases_failed) ∨
    ("sec" ∈ (run_phase "sec" "skills/research_sec.py" 300
        (ProcResult.exited 1 "" "boom") (create_metadata "TSLA" "d" "t")).2.phases_completed ∧
     "sec" ∉ (run_phase "sec" "skills/research_sec.py" 300
        (ProcResult.exited 1 "" "boom") (create_metadata "TSLA" "d" "t")).2.phases_failed) :=
  Or.symm ((run_phase_records_exactly_one "sec" "skills/research_sec.py" 300
    (ProcResult.exited 1 "" "boom") (create_metadata "TSLA" "d" "t")).2
    (by decide) (by decide))

/-- C10: `validate_ticker` returns False exactly when the lookup subprocess
ran and exited with a non-zero code; a 30-second timeout, a missing
lookup script, or any other exception makes it return True, so the
run proceeds as if the symbol were valid. -/
theorem validate_ticker_false_iff_nonzero_exit (r : ProcResult) :
    validate_ticker r = false ↔
      ∃ c out err, r = ProcResult.exited c out err ∧ c ≠ 0 := by
  cases r with
  | exited c o e =>
    by_cases hc : c = 0
    · subst hc
      simp [validate_ticker]
    · simp only [validate_ticker, decide_eq_false hc]
      constructor
      · intro _
        exact ⟨c, o, e, rfl, hc⟩
      · intro _
        trivial
  | timedOut => simp [validate_ticker]
  | notFound => simp [validate_ticker]
  | raised msg => simp [validate_ticker]

/-- The C8 end-to-end scenario: only the technical phase is requested, its
script exists, and the child exits 1 with stderr "rate limited". -/
def rateLimitedRun : RunConfig :=
  { symbol := "TSLA"
    research_date := "2026-01-16"
    research_timestamp := "2026-01-16T00:00:00"
    phases_to_run := ["technical"]
    scriptExists := fun _ => true
    phase_timeout := fun _ => 600
    procResult := fun _ => ProcResult.exited 1 "" "rate limited"
    completionOrder := [] }

/-- C8: `run_phase` returns True and appends the phase to the completed list
exactly when the child exits 0; any non-zero exit returns False and records
the phase as failed with an error string containing the return code and the
child's stderr.  End to end, requesting only "technical" with its script
exiting 1 and stderr "rate limited" yields exit code 1,
`phases_failed = ["technical"]`, and an error containing "rate limited". -/
theorem run_phase_success_iff_exit_zero :
    (∀ (n s : String) (t : Nat) (r : ProcResult) (m : Metadata),
      ((run_phase n s t r m).1 = true ↔
        ∃ out err, r = ProcResult.exited 0 out err) ∧
      ((run_phase n s t r m).2.phases_completed = m.phases_completed ++ [n] ↔
        ∃ out err, r = ProcResult.exited 0 out err)) ∧
    (∀ (n s : String) (t : Nat) (c : Int) (out err : String) (m : Metadata),
      c ≠ 0 →
      (run_phase n s t (ProcResult.exited c out err) m).1 = false ∧
      (run_phase n s t (ProcResult.exited c out err) m).2.phases_failed =
        m.phases_failed ++ [n] ∧
      ∃ msg, (run_phase n s t (ProcResult.exited c out err) m).2.errors =
        m.errors ++ [msg] ∧ containsStr msg (toString c) ∧
        containsStr msg err) ∧
    (mainExitCode rateLimitedRun = 1 ∧
     (mainPhaseExec rateLimitedRun).metadata.phases_failed = ["technical"] ∧
     ∃ e ∈ (mainPhaseExec rateLimitedRun).metadata.errors,
       containsStr e "rate limited") := by
  refine ⟨?_, ?_, ?_, ?_, ?_⟩
  · intro n s t r m
    constructor
    · rw [run_phase_fst]
      cases r with
      | exited c o e =>
        by_cases hc : c = 0
        · subst hc
          simp [resOk]
        · simp [resOk, hc]
      | timedOut => simp [resOk]
      | notFound => simp [resOk]
      | raised msg => simp [resOk]
    · rw [run_phase_completed]
      cases r with
      | exited c o e =>
        by_cases hc : c = 0
        · subst hc
          simp [resOk]
        · simp [resOk, hc]
      | timedOut => simp [resOk]
      | notFound => simp [resOk]
      | raised msg => simp [resOk]
  · intro n s t c out err m hc
    refine ⟨?_, ?_, ?_⟩
    · rw [run_phase_fst]
      simp [resOk, hc]
    · rw [run_phase_failed]
      simp [resOk, hc]
    · refine ⟨if err = "" then
          "Phase '" ++ n ++ "' failed with return code " ++ toString c
        else
          ("Phase '" ++ n ++ "' failed with return code " ++ toString c)
            ++ ": " ++ err, ?_, ?_, ?_⟩
      · simp [run_phase, hc]
      · by_cases herr : err = ""
        · refine ⟨"Phase '" ++ n ++ "' failed with return code ", "", ?_⟩
          simp [herr, String.append_assoc, String.append_empty]
        · refine ⟨"Phase '" ++ n ++ "' failed with return code ",
            ": " ++ err, ?_⟩
          simp [herr, String.append_assoc]
      · by_cases herr : err = ""
        · refine ⟨"Phase '" ++ n ++ "' failed with return code "
            ++ toString c, "", ?_⟩
          simp [herr, String.append_assoc, String.append_empty]
        · refine ⟨("Phase '" ++ n ++ "' failed with return code "
            ++ toString c) ++ ": ", "", ?_⟩
          simp [herr, String.append_assoc, String.append_empty]
  · decide
  · decide
  · refine ⟨"Phase 'technical' failed with return code 1: rate limited",
      by decide,
      "Phase 'technical' failed with return code 1: ", "", by decide⟩

/-- C8 witness: a child exiting 7 with stderr "boom" makes `run_phase` fail
and record an error message containing "7" and "boom". -/
theorem run_phase_success_iff_exit_zero_witness :
    (run_phase "sec" "skills/research_sec.py" 300
      (ProcResult.exited 7 "" "boom") (create_metadata "TSLA" "d" "t")).1 = false ∧
    (run_phase "sec" "skills/research_sec.py" 300
      (ProcResult.exited 7 "" "boom")
      (create_metadata "TSLA" "d" "t")).2.phases_failed = [] ++ ["sec"] ∧
    ∃ msg, (run_phase "sec" "skills/research_sec.py" 300
        (ProcResult.exited 7 "" "boom")
        (create_metadata "TSLA" "d" "t")).2.errors = [] ++ [msg] ∧
      containsStr msg (toString (7 : Int)) ∧ containsStr msg "boom" :=
  run_phase_success_iff_exit_zero.2.1 "sec" "skills/research_sec.py" 300 7 ""
    "boom" (create_metadata "TSLA" "d" "t") (by decide)

/-- The C2 scenario: two parallel data phases (fundamental and research),
both scripts present, both children exiting 0, their locked metadata
writes landing in this completion order. -/
def twoParallelRun : RunConfig :=
  { symbol := "TSLA"
    research_date := "2026-01-16"
    research_timestamp := "2026-01-16T00:00:00"
    phases_to_run := ["fundamental", "research"]
    scriptExists := fun _ => true
    phase_timeout := fun _ => 300
    procResult := fun _ => ProcResult.exited 0 "" ""
    completionOrder := ["fundamental", "research"] }

/-- C2 refutation: with two phases completing in the parallel stage, the
final persisted `00_metadata.json` does NOT contain one entry per phase.
Each `executor.submit` pickles the metadata dict, so each worker task
appends to its own private copy and persists that copy; the last writer
wins.  Here "fundamental" completed successfully yet appears in neither
list of the final persisted metadata (and the parent's in-memory dict,
which the final summary prints, records neither phase), even though every
append-and-persist ran under the shared exclusive lock. -/
theorem parallel_metadata_lost_update :
    twoParallelRun.completionOrder = submittedTasks twoParallelRun ∧
    (finalDiskMetadata twoParallelRun).phases_completed = ["research"] ∧
    "fundamental" ∉ (finalDiskMetadata twoParallelRun).phases_completed ∧
    "fundamental" ∉ (finalDiskMetadata twoParallelRun).phases_failed ∧
    (mainPhaseExec twoParallelRun).metadata.phases_completed = [] ∧
    (mainPhaseExec twoParallelRun).success_count = 2 := by decide

theorem phaseEvents_of_ne_notFound (r : ProcResult) (n : String)
    (h : r ≠ ProcResult.notFound) :
    phaseEvents r n = [Event.launch n, Event.exited n] := by
  cases r with
  | exited c o e => rfl
  | timedOut => rfl
  | notFound => exact absurd rfl h
  | raised m => rfl

/-- C3: when "technical" is requested, its script exists, and its child is
actually spawned, the technical child's launch and exit are the first two
process events of the run — so no other phase's child process is launched
before the technical phase's child has exited, whatever the parallel
stage's completion order. -/
theorem technical_runs_before_other_launches (cfg : RunConfig)
    (h1 : "technical" ∈ cfg.phases_to_run)
    (h2 : cfg.scriptExists "technical" = true)
    (h3 : cfg.procResult "technical" ≠ ProcResult.notFound) :
    ∃ rest, (mainPhaseExec cfg).events =
        Event.launch "technical" :: Event.exited "technical" :: rest ∧
      ∀ (i : Nat) (p : String), p ≠ "technical" →
        (mainPhaseExec cfg).events[i]? = some (Event.launch p) →
        ∃ j, j < i ∧
          (mainPhaseExec cfg).events[j]? = some (Event.exited "technical") := by
  have hev : ∃ rest, (mainPhaseExec cfg).events =
      Event.launch "technical" :: Event.exited "technical" :: rest := by
    unfold mainPhaseExec
    rw [runSequentialPhase_events, runSequentialPhase_events,
      runSequentialPhase_events, runParallelStage_events,
      runSequentialPhase_events]
    rw [if_pos ⟨h1, h2⟩, phaseEvents_of_ne_notFound _ _ h3]
    simp only [List.nil_append, List.append_assoc]
    exact ⟨_, rfl⟩
  obtain ⟨rest, hev⟩ := hev
  refine ⟨rest, hev, ?_⟩
  intro i p hp hl
  refine ⟨1, ?_, ?_⟩
  · rcases i with _ | _ | i
    · rw [hev] at hl
      simp at hl
      exact absurd hl.symm hp
    · rw [hev] at hl
      simp at hl
    · omega
  · rw [hev]
    simp

/-- A full run used as a concrete witness: all nine phases requested, every
script present, every child exiting 0, the five parallel futures
completing in submission order. -/
def fullRun : RunConfig :=
  { symbol := "TSLA"
    research_date := "2026-01-16"
    research_timestamp := "2026-01-16T00:00:00"
    phases_to_run := ["technical", "fundamental", "research", "analysis",
      "sec", "wikipedia", "report", "deep", "final"]
    scriptExists := fun _ => true
    phase_timeout := fun _ => 300
    procResult := fun _ => ProcResult.exited 0 "" ""
    completionOrder := ["fundamental", "research", "analysis", "sec",
      "wikipedia"] }

/-- C3 witness: on the full run, the technical child's exit precedes every
other phase's launch. -/
theorem technical_runs_before_other_launches_witness :
    ∃ rest, (mainPhaseExec fullRun).events =
        Event.launch "technical" :: Event.exited "technical" :: rest ∧
      ∀ (i : Nat) (p : String), p ≠ "technical" →
        (mainPhaseExec fullRun).events[i]? = some (Event.launch p) →
        ∃ j, j < i ∧
          (mainPhaseExec fullRun).events[j]? =
            some (Event.exited "technical") :=
  technical_runs_before_other_launches fullRun (by decide) (by decide)
    (by decide)

/-- The C4 counterexample scenario: only "technical" is requested and its
script is absent from disk. -/
def skippedOnlyRun : RunConfig :=
  { symbol := "TSLA"
    research_date := "2026-01-16"
    research_timestamp := "2026-01-16T00:00:00"
    phases_to_run := ["technical"]
    scriptExists := fun _ => false
    phase_timeout := fun _ => 300
    procResult := fun _ => ProcResult.exited 0 "" ""
    completionOrder := [] }

/-- C4 refutation of the "in particular" clause: when the only requested
phase is skipped because its script is absent, the orchestrator exits 1
even though no requested phase failed — exit status "failure" does not
imply that every requested phase failed. -/
theorem exit_code_one_without_any_failure :
    mainExitCode skippedOnlyRun = 1 ∧
    (mainPhaseExec skippedOnlyRun).failed_count = 0 ∧
    (mainPhaseExec skippedOnlyRun).metadata.phases_failed = [] ∧
    "technical" ∈ skippedOnlyRun.phases_to_run ∧
    "technical" ∉ (mainPhaseExec skippedOnlyRun).metadata.phases_failed := by
  decide

/-- C4 (amended): for every run that reaches phase execution, the
orchestrator's exit code is 0 exactly when at least one requested phase
ran and completed successfully, and 1 otherwise — exit 1 means no
requested phase succeeded (each requested phase either failed or was
skipped because its script is absent), not that every one failed. -/
theorem exit_code_zero_iff_some_phase_succeeded (cfg : RunConfig) :
    (mainExitCode cfg = 0 ↔
      ∃ p ∈ cfg.phases_to_run, cfg.scriptExists p = true ∧
        resOk (cfg.procResult p) = true) ∧
    (mainExitCode cfg = 0 ∨ mainExitCode cfg = 1) := by
  have hiff : mainExitCode cfg = 0 ↔ 0 < (mainPhaseExec cfg).success_count := by
    unfold mainExitCode
    by_cases h : (mainPhaseExec cfg).success_count > 0 <;> simp [h]
  constructor
  · rw [hiff, mainPhaseExec_success_count]
    constructor
    · intro hpos
      by_contra hne
      push_neg at hne
      have hterm : ∀ n : String,
          (if n ∈ cfg.phases_to_run ∧ cfg.scriptExists n = true ∧
              resOk (cfg.procResult n) = true then 1 else 0) = 0 := by
        intro n
        rw [if_neg]
        rintro ⟨ha, hb, hc⟩
        exact (hne n ha hb) hc
      have hcount : (submittedTasks cfg).countP
          (fun p => resOk (cfg.procResult p)) = 0 := by
        rw [List.countP_eq_zero]
        intro a ha hok
        have hm1 := List.mem_filter.mp ha
        have hm2 := List.mem_filter.mp hm1.1
        exact (hne a hm2.1 hm1.2) hok
      rw [hterm, hterm, hterm, hterm, hcount] at hpos
      omega
    · rintro ⟨p, hmem, hex, hok⟩
      by_cases hp1 : p = "technical"
      · subst hp1
        have h5 : (if "technical" ∈ cfg.phases_to_run ∧
            cfg.scriptExists "technical" = true ∧
            resOk (cfg.procResult "technical") = true then 1 else 0) = 1 :=
          if_pos ⟨hmem, hex, hok⟩
        rw [h5]
        omega
      · by_cases hp2 : p = "report"
        · subst hp2
          have h5 : (if "report" ∈ cfg.phases_to_run ∧
              cfg.scriptExists "report" = true ∧
              resOk (cfg.procResult "report") = true then 1 else 0) = 1 :=
            if_pos ⟨hmem, hex, hok⟩
          rw [h5]
          omega
        · by_cases hp3 : p = "deep"
          · subst hp3
            have h5 : (if "deep" ∈ cfg.phases_to_run ∧
                cfg.scriptExists "deep" = true ∧
                resOk (cfg.procResult "deep") = true then 1 else 0) = 1 :=
              if_pos ⟨hmem, hex, hok⟩
            rw [h5]
            omega
          · by_cases hp4 : p = "final"
            · subst hp4
              have h5 : (if "final" ∈ cfg.phases_to_run ∧
                  cfg.scriptExists "final" = true ∧
                  resOk (cfg.procResult "final") = true then 1 else 0) = 1 :=
                if_pos ⟨hmem, hex, hok⟩
              rw [h5]
              omega
            · have hsubm : p ∈ submittedTasks cfg := by
                refine List.mem_filter.mpr ⟨List.mem_filter.mpr
                  ⟨hmem, ?_⟩, hex⟩
                simp [hp1, hp2, hp3, hp4]
              have hcp : 0 < (submittedTasks cfg).countP
                  (fun p => resOk (cfg.procResult p)) :=
                List.countP_pos_iff.mpr ⟨p, hsubm, hok⟩
              omega
  · unfold mainExitCode
    by_cases h : (mainPhaseExec cfg).success_count > 0 <;> simp [h]

/-- A pre-run configuration with a valid ticker, cleanup enabled, valid
phase names, and a missing required credential. -/
def missingKeysPre : PreRunConfig :=
  { tickerValid := true
    skip_cleanup := false
    phasesValid := true
    keysValid := false }

/-- A pre-run configuration whose ticker fails provider-backed lookup. -/
def invalidTickerPre : PreRunConfig :=
  { tickerValid := false
    skip_cleanup := false
    phasesValid := true
    keysValid := true }

/-- C5 refutation: on a run with a valid ticker but a missing required
credential, `main` aborts before any phase executes — but only after the
destructive cleanup of prior run directories, the creation of the new work
directory, and the creation of the metadata file, because
`validate_api_keys` runs after those side effects, not before. -/
theorem missing_credentials_abort_after_side_effects :
    mainPreRun missingKeysPre =
      ([PreEvent.validateTickerEv, PreEvent.cleanupDeleteEv,
        PreEvent.ensureDirEv, PreEvent.createMetadataEv], some 1) := by
  decide

/-- C5 (amended): an invalid ticker aborts the run before any side effect
(no cleanup, no work directory, no metadata file); a missing credential
still aborts before the company-overview fetch and before any phase
executes, but after old-directory cleanup, work-directory creation and
metadata-file creation have already happened. -/
theorem validation_abort_ordering (cfg : PreRunConfig) :
    (cfg.tickerValid = false →
      mainPreRun cfg = ([PreEvent.validateTickerEv], some 1)) ∧
    (cfg.keysValid = false →
      (mainPreRun cfg).2 = some 1 ∧
      PreEvent.phaseExecutionEv ∉ (mainPreRun cfg).1 ∧
      PreEvent.companyOverviewEv ∉ (mainPreRun cfg).1) := by
  constructor
  · intro h
    simp [mainPreRun, h]
  · intro h
    cases ht : cfg.tickerValid
    · cases hs : cfg.skip_cleanup <;> simp [mainPreRun, ht, hs]
    · cases hp : cfg.phasesValid <;> cases hs : cfg.skip_cleanup <;>
        simp [mainPreRun, ht, hp, hs, h]

/-- C5 witness: the amended behaviour at two concrete configurations — an
invalid ticker, and a valid ticker with a missing credential. -/
theorem validation_abort_ordering_witness :
    (mainPreRun invalidTickerPre = ([PreEvent.validateTickerEv], some 1)) ∧
    ((mainPreRun missingKeysPre).2 = some 1 ∧
     PreEvent.phaseExecutionEv ∉ (mainPreRun missingKeysPre).1 ∧
     PreEvent.companyOverviewEv ∉ (mainPreRun missingKeysPre).1) :=
  ⟨(validation_abort_ordering invalidTickerPre).1 rfl,
   (validation_abort_ordering missingKeysPre).2 rfl⟩

/-- C9: a requested phase whose script is absent from disk is skipped
entirely: it appears in neither list of the parent metadata nor of any
persisted metadata snapshot, and removing it from the request changes
neither the success tally nor the failure tally (it counts toward
neither), while the other phases' accounting is untouched. -/
theorem missing_script_phase_skipped (cfg : RunConfig) (p : String)
    (hp : p ∈ cfg.phases_to_run) (hex : cfg.scriptExists p = false)
    (hco : ∀ q ∈ cfg.completionOrder, q ∈ submittedTasks cfg) :
    (p ∉ (mainPhaseExec cfg).metadata.phases_completed ∧
     p ∉ (mainPhaseExec cfg).metadata.phases_failed) ∧
    (∀ m ∈ (mainPhaseExec cfg).disk,
      p ∉ m.phases_completed ∧ p ∉ m.phases_failed) ∧
    (mainPhaseExec cfg).success_count =
      (mainPhaseExec { cfg with phases_to_run :=
        (cfg.phases_to_run.filter (fun q => q != p)) }).success_count ∧
    (mainPhaseExec cfg).failed_count =
      (mainPhaseExec { cfg with phases_to_run :=
        (cfg.phases_to_run.filter (fun q => q != p)) }).failed_count := by
  obtain ⟨hmeta, hdisk⟩ := mainPhaseExec_notRecorded cfg p hex hco
  have hsub : submittedTasks { cfg with phases_to_run :=
      (cfg.phases_to_run.filter (fun q => q != p)) } = submittedTasks cfg := by
    unfold submittedTasks other_data_phases
    dsimp only
    simp only [List.filter_filter]
    refine List.filter_congr ?_
    intro a _
    by_cases ha : a = p
    · subst ha
      simp [hex]
    · have hne : (a != p) = true := by
        simp [bne_iff_ne, ha]
      simp [hne]
  have hif : ∀ (n : String) (Q : Prop) (inst : Decidable Q),
      (if n ∈ cfg.phases_to_run ∧ cfg.scriptExists n = true ∧ Q
        then 1 else 0) =
      (if n ∈ cfg.phases_to_run.filter (fun q => q != p) ∧
          cfg.scriptExists n = true ∧ Q then 1 else 0) := by
    intro n Q inst
    by_cases hn : n = p
    · subst hn
      simp [hex]
    · have hm : n ∈ cfg.phases_to_run.filter (fun q => q != p) ↔
          n ∈ cfg.phases_to_run := by
        rw [List.mem_filter]
        simp [hn]
      exact if_congr (and_congr_left' hm.symm) rfl rfl
  refine ⟨hmeta, hdisk, ?_, ?_⟩
  · rw [mainPhaseExec_success_count, mainPhaseExec_success_count, hsub]
    dsimp only
    rw [hif "technical" _ inferInstance, hif "report" _ inferInstance,
      hif "deep" _ inferInstance, hif "final" _ inferInstance]
  · rw [mainPhaseExec_failed_count, mainPhaseExec_failed_count, hsub]
    dsimp only
    rw [hif "technical" _ inferInstance, hif "report" _ inferInstance,
      hif "deep" _ inferInstance, hif "final" _ inferInstance]

/-- The C9 scenario: all nine phases requested, every script present except
"deep", every present child exiting 0. -/
def deepMissingRun : RunConfig :=
  { symbol := "TSLA"
    research_date := "2026-01-16"
    research_timestamp := "2026-01-16T00:00:00"
    phases_to_run := ["technical", "fundamental", "research", "analysis",
      "sec", "wikipedia", "report", "deep", "final"]
    scriptExists := fun p => !(p == "deep")
    phase_timeout := fun _ => 300
    procResult := fun _ => ProcResult.exited 0 "" ""
    completionOrder := ["fundamental", "research", "analysis", "sec",
      "wikipedia"] }

/-- C9 witness: requesting all phases with the "deep" script missing leaves
"deep" absent from both lists everywhere and both tallies unchanged. -/
theorem missing_script_phase_skipped_witness :
    ("deep" ∉ (mainPhaseExec deepMissingRun).metadata.phases_completed ∧
     "deep" ∉ (mainPhaseExec deepMissingRun).metadata.phases_failed) ∧
    (∀ m ∈ (mainPhaseExec deepMissingRun).disk,
      "deep" ∉ m.phases_completed ∧ "deep" ∉ m.phases_failed) ∧
    (mainPhaseExec deepMissingRun).success_count =
      (mainPhaseExec { deepMissingRun with phases_to_run :=
        (deepMissingRun.phases_to_run.filter (fun q => q != "deep")) }).success_count ∧
    (mainPhaseExec deepMissingRun).failed_count =
      (mainPhaseExec { deepMissingRun with phases_to_run :=
        (deepMissingRun.phases_to_run.filter (fun q => q != "deep")) }).failed_count :=
  missing_script_phase_skipped deepMissingRun "deep" (by decide) (by decide)
    (by decide)
